import Mathlib

/-!
Verification of the resilient multi-provider AI request gateway.

This file gives a shallow embedding, in Lean 4, of the gateway subsystem of
the repository (circuit breaker / stability engine, credential key pool,
sliding-window rate limiter, health-aware provider selector, provider
adapters' error classification, the credential-rotating router loop and the
stream relay), and proves or refutes the frozen specification claims about
it.  Times (the values of `time.time()` in the source) are modelled as
integers: the code only ever adds, subtracts and compares timestamps, so
any linearly ordered abelian group is a faithful model, and the integers
keep every definition executable.
-/

/-! ## Circuit breaker / stability engine
Embedding of `backend/core/stability_engine.py`. -/

/-- The three circuit-breaker states of the `CircuitBreaker` dataclass
(`state: str = "closed"  # closed, open, half-open`). -/
inductive CBState where
  | closed
  | open_
  | halfOpen
deriving DecidableEq, Repr

/-- The `CircuitBreaker` dataclass of `stability_engine.py` (lines 44-52). -/
structure CircuitBreaker where
  service_name : String
  failure_threshold : Nat
  recovery_timeout : ℤ
  failure_count : Nat
  last_failure_time : Option ℤ
  state : CBState
deriving DecidableEq, Repr

/-- `CircuitBreaker(service_name=service)` with the dataclass defaults:
threshold 5, recovery timeout 60.0 s, zero failures, no last failure, closed. -/
def mkCircuitBreaker (service_name : String) : CircuitBreaker :=
  { service_name := service_name
    failure_threshold := 5
    recovery_timeout := 60
    failure_count := 0
    last_failure_time := none
    state := .closed }

namespace StabilityEngine

/-- `StabilityEngine._check_circuit_breaker` (lines 200-218): returns whether
the operation is allowed, together with the (possibly mutated) breaker.
In the `open` state, if `time.time() - (cb.last_failure_time or 0) >
cb.recovery_timeout` the breaker moves to half-open and the call is allowed;
otherwise it is blocked.  `closed` and `half-open` always allow. -/
def check_circuit_breaker (now : ℤ) (cb : CircuitBreaker) : Bool × CircuitBreaker :=
  match cb.state with
  | .closed => (true, cb)
  | .open_ =>
      if now - (cb.last_failure_time.getD 0) > cb.recovery_timeout then
        (true, { cb with state := .halfOpen })
      else
        (false, cb)
  | .halfOpen => (true, cb)

/-- `StabilityEngine._record_circuit_failure` (lines 220-231): increment
`failure_count`, stamp `last_failure_time = time.time()`, and open the
breaker when the count reaches the threshold. -/
def record_circuit_failure (now : ℤ) (cb : CircuitBreaker) : CircuitBreaker :=
  if cb.failure_count + 1 ≥ cb.failure_threshold then
    { cb with
      failure_count := cb.failure_count + 1
      last_failure_time := some now
      state := .open_ }
  else
    { cb with
      failure_count := cb.failure_count + 1
      last_failure_time := some now }

/-- `StabilityEngine._reset_circuit_breaker` (lines 233-240): on success,
zero the failure count and close the breaker if it was half-open. -/
def reset_circuit_breaker (cb : CircuitBreaker) : CircuitBreaker :=
  if cb.state = .halfOpen then
    { cb with failure_count := 0, state := .closed }
  else
    { cb with failure_count := 0 }

/-- `StabilityEngine._initialize_recovery_strategies` (lines 102-110) together
with the bodies of the five strategy coroutines (lines 262-296): each
registered error-type name is mapped to the boolean its strategy returns
(`_recover_authentication_error` returns `False`, the other four return
`True`); an unregistered error type has no strategy (`none`). -/
def recovery_strategies : String → Option Bool
  | "database_connection" => some true
  | "ai_provider_timeout" => some true
  | "memory_error" => some true
  | "network_error" => some true
  | "authentication_error" => some false
  | _ => none

/-- `StabilityEngine._attempt_recovery` (lines 242-260): look up the strategy
for `type(error).__name__`; with no strategy, report failure; otherwise
report what the strategy returned. -/
def attempt_recovery (errType : String) : Bool :=
  match recovery_strategies errType with
  | none => false
  | some strategyResult => strategyResult

/-- Result of `execute_with_stability` as seen by the caller. -/
inductive StabilityOutcome (α : Type) where
  | success : α → StabilityOutcome α
  | fallbackResult : α → StabilityOutcome α
  | serviceUnavailable : StabilityOutcome α
  | reraised : StabilityOutcome α
deriving DecidableEq, Repr

/-- Execution trace of one `execute_with_stability` call: the caller-visible
outcome, how many times `operation` was invoked, how many error records were
appended by `_record_error`, how many recovery strategies were invoked, how
many times `fallback` was invoked, and the final breaker state. -/
structure ExecTrace (α : Type) where
  outcome : StabilityOutcome α
  opCalls : Nat
  errorRecords : Nat
  recoveryCalls : Nat
  fallbackCalls : Nat
  cb : CircuitBreaker
deriving Repr

/-- The number of recovery-strategy invocations `_attempt_recovery` makes:
one when a strategy is registered for the classified error type, none
otherwise (lines 244-251). -/
def recoveryCallCount (errType : String) : Nat :=
  if (recovery_strategies errType).isSome then 1 else 0

/-- `StabilityEngine.execute_with_stability` (lines 112-174).  The operation
is modelled by the results of its successive invocations (`op 0` first call,
`op 1` the retry; `none` means the call raises), the classified error type of
the first failure by `errType`, and the fallback by an optional value.
`checkTime` is the clock at the circuit-breaker check and `failTime` the
clock when a failure is recorded. -/
def execute_with_stability {α : Type} (cb : CircuitBreaker)
    (checkTime failTime : ℤ) (op : Nat → Option α) (errType : String)
    (fallback : Option α) : ExecTrace α :=
  if (check_circuit_breaker checkTime cb).1 = false then
    match fallback with
    | some f => ⟨.fallbackResult f, 0, 0, 0, 1, (check_circuit_breaker checkTime cb).2⟩
    | none => ⟨.serviceUnavailable, 0, 0, 0, 0, (check_circuit_breaker checkTime cb).2⟩
  else
    match op 0 with
    | some r => ⟨.success r, 1, 0, 0, 0,
        reset_circuit_breaker (check_circuit_breaker checkTime cb).2⟩
    | none =>
      if attempt_recovery errType then
        match op 1 with
        | some r => ⟨.success r, 2, 1, recoveryCallCount errType, 0,
            record_circuit_failure failTime (check_circuit_breaker checkTime cb).2⟩
        | none =>
          match fallback with
          | some f => ⟨.fallbackResult f, 2, 1, recoveryCallCount errType, 1,
              record_circuit_failure failTime (check_circuit_breaker checkTime cb).2⟩
          | none => ⟨.reraised, 2, 1, recoveryCallCount errType, 0,
              record_circuit_failure failTime (check_circuit_breaker checkTime cb).2⟩
      else
        match fallback with
        | some f => ⟨.fallbackResult f, 1, 1, recoveryCallCount errType, 1,
            record_circuit_failure failTime (check_circuit_breaker checkTime cb).2⟩
        | none => ⟨.reraised, 1, 1, recoveryCallCount errType, 0,
            record_circuit_failure failTime (check_circuit_breaker checkTime cb).2⟩

/-- The circuit-breaker states reachable by the engine: breakers start as
`mkCircuitBreaker name` (`_initialize_circuit_breakers`), every state after
the initial `_check_circuit_breaker` of a call is observable, and the
success / failure bookkeeping (`_reset_circuit_breaker`,
`_record_circuit_failure`) runs only when that check allowed the operation,
exactly as in `execute_with_stability`. -/
inductive CBReachable : CircuitBreaker → Prop where
  | init (name : String) : CBReachable (mkCircuitBreaker name)
  | check {cb : CircuitBreaker} (h : CBReachable cb) (t : ℤ) :
      CBReachable (check_circuit_breaker t cb).2
  | success {cb : CircuitBreaker} (h : CBReachable cb) (t : ℤ)
      (hallow : (check_circuit_breaker t cb).1 = true) :
      CBReachable (reset_circuit_breaker (check_circuit_breaker t cb).2)
  | failure {cb : CircuitBreaker} (h : CBReachable cb) (t tf : ℤ)
      (hallow : (check_circuit_breaker t cb).1 = true) :
      CBReachable (record_circuit_failure tf (check_circuit_breaker t cb).2)

end StabilityEngine

/-! ## Credential key pool
Embedding of `backend/services/key_pool.py`. -/

/-- The `KeyState` class of `key_pool.py` (lines 8-12). -/
structure KeyState where
  key : String
  used_today : Nat
  cooldown_until : Option ℤ
deriving DecidableEq, Repr

namespace KeyPool

/-- The candidate filter inside `KeyPool.acquire` (lines 30-33):
`k.cooldown_until is None or k.cooldown_until <= now`. -/
def eligible (now : ℤ) (k : KeyState) : Bool :=
  match k.cooldown_until with
  | none => true
  | some t => t ≤ now

/-- One comparison step of Python's `min(candidates, key=lambda k:
k.used_today)`: keep the earlier key on ties. -/
def minUsedStep (best k : KeyState) : KeyState :=
  if k.used_today < best.used_today then k else best

/-- `min(candidates, key=lambda k: k.used_today)` over a non-empty candidate
list `c :: cs`: the first key attaining the least `used_today`. -/
def minUsed (c : KeyState) (cs : List KeyState) : KeyState :=
  cs.foldl minUsedStep c

/-- `KeyPool.acquire` (lines 28-38) for the credential list of one provider:
filter the eligible keys, return `none` when there is no candidate,
otherwise the least-used candidate. -/
def acquire (keys : List KeyState) (now : ℤ) : Option KeyState :=
  match keys.filter (eligible now) with
  | [] => none
  | c :: cs => some (minUsed c cs)

/-- `KeyPool.mark_used` (lines 40-41). -/
def mark_used (k : KeyState) : KeyState :=
  { k with used_today := k.used_today + 1 }

/-- `KeyPool.cooldown` (lines 43-44): stamp
`key.cooldown_until = time.time() + seconds` (default 60 s). -/
def cooldown (now : ℤ) (k : KeyState) (seconds : ℤ) : KeyState :=
  { k with cooldown_until := some (now + seconds) }

end KeyPool

/-! ## Sliding-window rate limiter
Embedding of `backend/app/middleware/rate_limit.py`, `InMemoryLimiter`. -/

namespace InMemoryLimiter

/-- `InMemoryLimiter.allow` (lines 45-57) for the bucket of one identifier:
compute `window_start = now - window`, pop timestamps from the left of the
deque while they are older than `window_start`, then admit (appending `now`
and reporting the remaining allowance) iff fewer than `limit` timestamps
remain.  Returns (admitted, remaining, new bucket). -/
def allow (limit : Nat) (window : ℤ) (q : List ℤ) (now : ℤ) :
    Bool × Nat × List ℤ :=
  if (q.dropWhile (fun t => decide (t < now - window))).length < limit then
    (true, limit - ((q.dropWhile (fun t => decide (t < now - window))).length + 1),
      q.dropWhile (fun t => decide (t < now - window)) ++ [now])
  else
    (false, 0, q.dropWhile (fun t => decide (t < now - window)))

/-- Successive `allow` calls of one identifier at the given request times:
returns the admission decision of each request and the final bucket. -/
def run (limit : Nat) (window : ℤ) : List ℤ → List ℤ → List Bool × List ℤ
  | q, [] => ([], q)
  | q, t :: ts =>
    ((allow limit window q t).1 ::
        (run limit window (allow limit window q t).2.2 ts).1,
      (run limit window (allow limit window q t).2.2 ts).2)

end InMemoryLimiter

/-! ## Health-aware provider selector
Embedding of `backend/core/model_provider.py`. -/

/-- The `ModelProvider` enum (lines 20-25). -/
inductive ModelProvider where
  | LOCAL
  | GROQ
  | OPENROUTER
  | OPENAI
deriving DecidableEq, Repr

namespace ModelRouter

/-- The remote-provider list probed by `_get_healthy_providers` (line 114),
which coincides with the priority order of `get_best_provider` (line 63). -/
def remoteProviders : List ModelProvider := [.GROQ, .OPENROUTER, .OPENAI]

/-- `ModelRouter._get_healthy_providers` (lines 112-121), with the outcome of
`_check_provider_health` for each remote provider abstracted by `healthy`
(the probes are network calls). -/
def get_healthy_providers (healthy : ModelProvider → Bool) : List ModelProvider :=
  remoteProviders.filter healthy

/-- `ModelRouter.get_best_provider` (lines 50-75): prefer local when the
local availability probe succeeds; otherwise return the first provider of the
priority list `[GROQ, OPENROUTER, OPENAI]` that is healthy; otherwise the
first healthy provider, if any; otherwise the emergency fallback `GROQ`.
`model_id` is the requested capability tier; the source never reads it. -/
def get_best_provider (model_id : String) (localAvailable : Bool)
    (healthy : ModelProvider → Bool) : ModelProvider :=
  if localAvailable then
    .LOCAL
  else
    let healthy_providers := get_healthy_providers healthy
    match remoteProviders.find? (fun p => healthy_providers.contains p) with
    | some p => p
    | none =>
      match healthy_providers with
      | p :: _ => p
      | [] => .GROQ

end ModelRouter

/-! ## Provider adapters: error classification
Embedding of the failure classification in `backend/app/providers/groq.py`,
`openrouter.py`, `huggingface.py` and `ollama.py`. -/

/-- The `AppError(status_code, message)` exceptions raised by the adapters
(`backend/core/errors.py`). -/
structure AppErr where
  status : Nat
  message : String
deriving DecidableEq, Repr

/-- The spec's normalized error taxonomy for adapter failures. -/
inductive NormalizedError where
  | auth_invalid
  | rate_limited
  | upstream_unavailable
  | timeout
  | transport_error
deriving DecidableEq, Repr

/-- Modelled from the spec: the taxonomy names the spec attaches to the
normalized errors the adapters raise — `auth_invalid` is the 401 error,
`rate_limited` the 429 error, `upstream_unavailable` the 503 error,
`timeout` the 504 timeout error, and every other failure status is a
`transport_error`.  (The source carries only the numeric statuses; this
definition is the spec-side naming used to compare them.) -/
def specErrorKind (e : AppErr) : NormalizedError :=
  if e.status = 401 then .auth_invalid
  else if e.status = 429 then .rate_limited
  else if e.status = 503 then .upstream_unavailable
  else if e.status = 504 then .timeout
  else .transport_error

namespace GroqProvider

/-- The status-code dispatch of `GroqProvider.stream`
(`app/providers/groq.py` lines 71-80): the `AppError` raised for a given
upstream status, `none` when status 200 lets streaming proceed. -/
def statusError (status : Nat) : Option AppErr :=
  if status = 401 then some ⟨401, "Invalid Groq API key"⟩
  else if status = 429 then some ⟨429, "Groq rate limit exceeded"⟩
  else if status = 503 then some ⟨503, "Groq service temporarily unavailable"⟩
  else if status ≠ 200 then some ⟨502, "Groq provider error: " ++ toString status⟩
  else none

/-- The `httpx.TimeoutException` handler (lines 87-89). -/
def timeoutError : AppErr := ⟨504, "Groq request timeout - please try again"⟩

/-- The `httpx.NetworkError` handler (lines 90-92). -/
def networkError : AppErr := ⟨503, "Network error communicating with Groq"⟩

end GroqProvider

namespace OpenRouterProvider

/-- The status-code dispatch of `OpenRouterProvider.stream`
(`app/providers/openrouter.py` lines 47-55, identical in both client
branches). -/
def statusError (status : Nat) : Option AppErr :=
  if status = 401 then some ⟨401, "Invalid OpenRouter API key"⟩
  else if status = 429 then some ⟨429, "OpenRouter rate limit exceeded"⟩
  else if status = 503 then some ⟨503, "OpenRouter service temporarily unavailable"⟩
  else if status ≠ 200 then some ⟨502, "OpenRouter provider error: " ++ toString status⟩
  else none

/-- The `httpx.TimeoutException` handler (lines 85-86). -/
def timeoutError : AppErr := ⟨504, "OpenRouter request timeout - please try again"⟩

end OpenRouterProvider

namespace HuggingFaceProvider

/-- The status-code dispatch of `HuggingFaceProvider.stream`
(`app/providers/huggingface.py` lines 49-50): every non-200 status raises
`AppError(502, "HuggingFace provider error")`. -/
def statusError (status : Nat) : Option AppErr :=
  if status ≠ 200 then some ⟨502, "HuggingFace provider error"⟩
  else none

/-- The `httpx.TimeoutException` handler (lines 44-45). -/
def timeoutError : AppErr := ⟨504, "HuggingFace request timeout - please try again"⟩

end HuggingFaceProvider

namespace OllamaProvider

/-- The status dispatch of `OllamaProvider.stream`
(`app/providers/ollama.py` lines 65-67): every non-200 status raises a
plain `RuntimeError` (modelled with status 502: a generic provider error,
carrying no normalized 401/429/503 classification). -/
def statusError (status : Nat) : Option AppErr :=
  if status ≠ 200 then some ⟨502, "Ollama API error " ++ toString status⟩
  else none

end OllamaProvider

/-! ## Credential-rotating router loop
Embedding of `AIRouter._stream_groq` (`backend/services/ai_router.py`
lines 121-145). -/

namespace AIRouter

/-- What one whole-key attempt of `self.groq_provider.stream(...)` produces:
the chunks yielded before the attempt ended, and the error raised (if any;
`none` means the stream completed). -/
abbrev KeyOutcome := List String × Option AppErr

/-- Result of the `_stream_groq` generator: everything it yielded, the
exhaustion error it raised (if any) carrying the last per-key error, the
number of per-key adapter attempts made, and the trace of credentials the
loop put into cooldown.  The loop body (lines 128-143) contains no call to
`KeyPool.cooldown` — on any per-key exception it logs and continues to the
next key — so the cooldown trace of a run is always empty. -/
structure StreamResult where
  chunks : List String
  exhausted : Option (Option AppErr)
  attempts : Nat
  cooldownsApplied : List String
deriving DecidableEq, Repr

/-- The key loop of `_stream_groq` (lines 126-145): try each key in order;
yield the chunks an attempt produced; on success, return; on failure,
remember the error and continue with the next key; after the last key,
raise `RuntimeError("All Groq keys exhausted. Last error: ...")`. -/
def streamGroqLoop (outcome : String → KeyOutcome) :
    List String → List String → Nat → Option AppErr → StreamResult
  | acc, [], n, lastError => ⟨acc, some lastError, n, []⟩
  | acc, k :: rest, n, _ =>
    match outcome k with
    | (cs, none) => ⟨acc ++ cs, none, n + 1, []⟩
    | (cs, some e) => streamGroqLoop outcome (acc ++ cs) rest (n + 1) (some e)

/-- `AIRouter._stream_groq` (lines 121-145): raise
`RuntimeError("No Groq keys available")` on an empty key list, otherwise run
the rotation loop.  `outcome k` is what the Groq adapter does when invoked
with key `k`. -/
def stream_groq (keys : List String) (outcome : String → KeyOutcome) :
    StreamResult :=
  match keys with
  | [] => ⟨[], some none, 0, []⟩
  | k :: rest => streamGroqLoop outcome [] (k :: rest) 0 none

/-- The operation the chat endpoint hands to `execute_with_stability`
(`api/v1/chat.py` lines 246-247): `execute_ai_stream` only wraps the
router's generator in a `StreamingResponse` and returns it.  Async
generators are lazy, so constructing the response never runs the generator
and never raises: every invocation returns the still-unconsumed stream,
whose failures surface only later, while the HTTP body is drained outside
the stability wrapper.  The returned value is modelled by what draining
that body will eventually produce. -/
def execute_ai_stream (keys : List String) (outcome : String → KeyOutcome) :
    Nat → Option StreamResult :=
  fun _ => some (stream_groq keys outcome)

end AIRouter

/-! ## Stream relay
Embedding of `genz_generator` (`backend/services/genz_stream.py` lines
122-128) and `event_stream` (`backend/services/stream.py` lines 12-14). -/

namespace StreamRelay

/-- One hexadecimal digit, lower case, as produced by Python string
formatting inside `json.dumps`. -/
def hexDigit (n : Nat) : Char :=
  if n < 10 then Char.ofNat (48 + n) else Char.ofNat (87 + n)

/-- A four-digit hexadecimal escape payload. -/
def hex4 (n : Nat) : String :=
  String.mk [hexDigit (n / 4096 % 16), hexDigit (n / 256 % 16),
    hexDigit (n / 16 % 16), hexDigit (n % 16)]

/-- The escaping `json.dumps` (default `ensure_ascii=True`) applies to one
character of a string value. -/
def jsonEscapeChar (c : Char) : String :=
  if c = '"' then "\\\""
  else if c = '\\' then "\\\\"
  else if c = '\n' then "\\n"
  else if c = '\r' then "\\r"
  else if c = '\t' then "\\t"
  else if c.toNat = 8 then "\\b"
  else if c.toNat = 12 then "\\f"
  else if c.toNat < 32 then "\\u" ++ hex4 c.toNat
  else if c.toNat < 127 then String.singleton c
  else if c.toNat ≤ 65535 then "\\u" ++ hex4 c.toNat
  else
    let v := c.toNat - 65536
    "\\u" ++ hex4 (55296 + v / 1024) ++ "\\u" ++ hex4 (56320 + v % 1024)

/-- JSON string-value escaping of a whole string. -/
def jsonEscape (s : String) : String :=
  String.join (s.data.map jsonEscapeChar)

/-- `json.dumps({'content': chunk})` as used at line 125 of
`genz_stream.py`. -/
def jsonDumpsContent (s : String) : String :=
  "\x7b\"content\": \"" ++ jsonEscape s ++ "\"\x7d"

/-- The SSE frame `f"data: {json.dumps({'content': chunk})}\n\n"` emitted
for one chunk by `genz_generator` (line 125). -/
def sseFrame (chunk : String) : String :=
  "data: " ++ jsonDumpsContent chunk ++ "\n\n"

/-- The terminal frame `"data: [DONE]\n\n"` emitted by `genz_generator`
after the source stream ends (line 128). -/
def doneMarker : String := "data: [DONE]\n\n"

/-- `genz_generator` (lines 122-128): forward each chunk of the adapter
stream as an SSE frame, in arrival order, then emit the terminal marker. -/
def genz_generator : List String → List String
  | [] => [doneMarker]
  | c :: rest => sseFrame c :: genz_generator rest

/-- `event_stream` inside `stream_response` (`services/stream.py` lines
12-14): forward each chunk as `f"data: {chunk}\n\n"`, in arrival order
(no terminal marker is emitted). -/
def event_stream : List String → List String
  | [] => []
  | c :: rest => ("data: " ++ c ++ "\n\n") :: event_stream rest

end StreamRelay

/-! ## Circuit-breaker invariants and transition theorems -/

namespace StabilityEngine

/-- The breaker invariant: away from `closed`, the failure count has reached
the threshold and a last-failure time is stamped. -/
def cbInv (cb : CircuitBreaker) : Prop :=
  cb.state ≠ .closed →
    cb.failure_count ≥ cb.failure_threshold ∧ cb.last_failure_time ≠ none

lemma cbInv_init (name : String) : cbInv (mkCircuitBreaker name) := by
  intro h
  simp [mkCircuitBreaker] at h

lemma check_snd_fields (t : ℤ) (cb : CircuitBreaker) :
    (check_circuit_breaker t cb).2.failure_count = cb.failure_count ∧
    (check_circuit_breaker t cb).2.last_failure_time = cb.last_failure_time ∧
    (check_circuit_breaker t cb).2.failure_threshold = cb.failure_threshold := by
  unfold check_circuit_breaker
  cases cb.state <;> simp <;> split <;> simp

lemma check_state_cases (t : ℤ) (cb : CircuitBreaker) :
    (check_circuit_breaker t cb).2.state = cb.state ∨
    (cb.state = .open_ ∧ (check_circuit_breaker t cb).2.state = .halfOpen) := by
  unfold check_circuit_breaker
  cases h : cb.state
  · exact Or.inl h
  · by_cases hc : t - cb.last_failure_time.getD 0 > cb.recovery_timeout
    · exact Or.inr ⟨rfl, by simp [hc]⟩
    · exact Or.inl (by simp [hc, h])
  · exact Or.inl h

lemma check_allowed_state (t : ℤ) (cb : CircuitBreaker)
    (hallow : (check_circuit_breaker t cb).1 = true) :
    (check_circuit_breaker t cb).2.state = .closed ∨
    (check_circuit_breaker t cb).2.state = .halfOpen := by
  rcases check_state_cases t cb with hs | ⟨_, hs⟩
  · rw [hs]
    cases h : cb.state
    · exact Or.inl rfl
    · exfalso
      unfold check_circuit_breaker at hallow hs
      rw [h] at hallow hs
      by_cases hc : t - cb.last_failure_time.getD 0 > cb.recovery_timeout
      · simp only [if_pos hc] at hs
        simp [h] at hs
      · simp only [if_neg hc] at hallow
        exact Bool.false_ne_true hallow
    · exact Or.inr rfl
  · exact Or.inr hs

lemma cbInv_check (t : ℤ) (cb : CircuitBreaker) (h : cbInv cb) :
    cbInv (check_circuit_breaker t cb).2 := by
  intro hne
  obtain ⟨hc, hl, ht⟩ := check_snd_fields t cb
  rw [hc, hl, ht]
  rcases check_state_cases t cb with hs | ⟨hs, _⟩
  · exact h (hs ▸ hne)
  · exact h (by simp [hs])

lemma cbInv_record (tf : ℤ) (cb : CircuitBreaker) (h : cbInv cb) :
    cbInv (record_circuit_failure tf cb) := by
  unfold cbInv record_circuit_failure
  split
  · rename_i hge
    intro _
    exact ⟨hge, by simp⟩
  · rename_i hlt
    intro hne
    exact absurd ((h hne).1.trans (Nat.le_succ _)) hlt

lemma cbInv_reset (cb : CircuitBreaker) (hst : cb.state ≠ .open_) :
    cbInv (reset_circuit_breaker cb) := by
  unfold cbInv reset_circuit_breaker
  split
  · intro hne
    exact absurd rfl hne
  · rename_i hno
    intro hne
    cases hs : cb.state
    · exact absurd hs hne
    · exact absurd hs hst
    · exact absurd hs hno

lemma cb_reachable_inv {cb : CircuitBreaker} (h : CBReachable cb) : cbInv cb := by
  induction h with
  | init name => exact cbInv_init name
  | check h t ih => exact cbInv_check t _ ih
  | success h t hallow ih =>
      rename_i cb'
      refine cbInv_reset _ ?_
      rcases check_allowed_state t cb' hallow with hs | hs <;> simp [hs]
  | failure h t tf hallow ih => exact cbInv_record tf _ (cbInv_check t _ ih)

/-- C1: the circuit-breaker step relation satisfies the specified
transitions.  In every reachable breaker state: a recorded failure while
`closed` opens the breaker exactly when the failure count reaches the
threshold; while `open`, the check moves the breaker to `half-open` exactly
when more than `recovery_timeout` has elapsed since the last failure; one
success while `half-open` closes the breaker and zeroes the failure count;
one failure while `half-open` reopens it and restarts the recovery timer;
any success while `closed` or `half-open` zeroes the failure count; and the
constructed breakers carry the defaults (threshold 5, timeout 60 s). -/
theorem circuit_breaker_transitions (cb : CircuitBreaker) (h : CBReachable cb)
    (now t tl : ℤ) :
    (cb.state = .closed →
      ((record_circuit_failure now cb).state = .open_ ↔
        cb.failure_count + 1 ≥ cb.failure_threshold))
    ∧ (cb.state = .open_ → cb.last_failure_time = some tl →
      ((check_circuit_breaker t cb).2.state = .halfOpen ↔
        t - tl > cb.recovery_timeout))
    ∧ (cb.state = .halfOpen →
      (reset_circuit_breaker cb).state = .closed ∧
      (reset_circuit_breaker cb).failure_count = 0)
    ∧ (cb.state = .halfOpen →
      (record_circuit_failure now cb).state = .open_ ∧
      (record_circuit_failure now cb).last_failure_time = some now)
    ∧ ((cb.state = .closed ∨ cb.state = .halfOpen) →
      (reset_circuit_breaker cb).failure_count = 0)
    ∧ (mkCircuitBreaker cb.service_name).failure_threshold = 5
    ∧ (mkCircuitBreaker cb.service_name).recovery_timeout = 60 := by
  refine ⟨?_, ?_, ?_, ?_, ?_, rfl, rfl⟩
  · intro hst
    unfold record_circuit_failure
    constructor
    · intro hopen
      by_contra hlt
      rw [if_neg hlt] at hopen
      simp only at hopen
      rw [hst] at hopen
      exact CBState.noConfusion hopen
    · intro hge
      rw [if_pos hge]
  · intro hst hlast
    unfold check_circuit_breaker
    rw [hst]
    simp only [hlast, Option.getD_some]
    split
    · rename_i hc
      simp [hc]
    · rename_i hc
      simp [hst, hc]
  · intro hst
    unfold reset_circuit_breaker
    rw [if_pos hst]
    exact ⟨rfl, rfl⟩
  · intro hst
    have hinv := cb_reachable_inv h (by simp [hst])
    unfold record_circuit_failure
    rw [if_pos (hinv.1.trans (Nat.le_succ _))]
    exact ⟨rfl, rfl⟩
  · intro _
    unfold reset_circuit_breaker
    split
    · rfl
    · rfl

/-- One step of `execute_with_stability` bookkeeping that ends in a recorded
failure, used to build concrete reachable breaker states. -/
def cbFailStep (cb : CircuitBreaker) (t : ℤ) : CircuitBreaker :=
  record_circuit_failure t (check_circuit_breaker t cb).2

/-- The breaker of the `ai_router` service after five straight failures at
time 0: a reachable `open` state. -/
def cbFive : CircuitBreaker :=
  cbFailStep (cbFailStep (cbFailStep (cbFailStep (cbFailStep
    (mkCircuitBreaker "ai_router") 0) 0) 0) 0) 0

lemma cbFailStep_reachable {cb : CircuitBreaker} (h : CBReachable cb) (t : ℤ)
    (hallow : (check_circuit_breaker t cb).1 = true) :
    CBReachable (cbFailStep cb t) :=
  CBReachable.failure h t t hallow

lemma cbFive_reachable : CBReachable cbFive := by
  refine cbFailStep_reachable (cbFailStep_reachable (cbFailStep_reachable
    (cbFailStep_reachable (cbFailStep_reachable (.init "ai_router")
      0 (by decide)) 0 (by decide)) 0 (by decide)) 0 (by decide)) 0 (by decide)

/-- The `ai_router` breaker after five failures and a circuit check at time
61 (more than `recovery_timeout = 60` after the last failure): a reachable
`half-open` state. -/
def cbHalf : CircuitBreaker := (check_circuit_breaker 61 cbFive).2

lemma cbHalf_reachable : CBReachable cbHalf :=
  CBReachable.check cbFive_reachable 61

theorem circuit_breaker_transitions_witness :
    cbHalf.state = .halfOpen
    ∧ (record_circuit_failure 62 cbHalf).state = .open_
    ∧ (record_circuit_failure 62 cbHalf).last_failure_time = some 62
    ∧ (reset_circuit_breaker cbHalf).state = .closed
    ∧ (reset_circuit_breaker cbHalf).failure_count = 0 := by
  have h := circuit_breaker_transitions cbHalf cbHalf_reachable 62 62 0
  refine ⟨by decide, (h.2.2.2.1 (by decide)).1, (h.2.2.2.1 (by decide)).2,
    (h.2.2.1 (by decide)).1, (h.2.2.1 (by decide)).2⟩

/-- C10: in every reachable breaker state, `open` or `half-open` implies the
failure count has reached the threshold and the last-failure time is
stamped; the open to half-open check never changes the failure count (so
that transition does not reset it); and a recorded failure only ever
increments the count — the count is zeroed only by the success path
(`reset_circuit_breaker`). -/
theorem circuit_breaker_reachable_invariant (cb : CircuitBreaker)
    (h : CBReachable cb) :
    ((cb.state = .open_ ∨ cb.state = .halfOpen) →
      cb.failure_count ≥ cb.failure_threshold ∧ cb.last_failure_time ≠ none)
    ∧ (∀ t : ℤ, (check_circuit_breaker t cb).2.failure_count = cb.failure_count)
    ∧ (∀ tf : ℤ,
      (record_circuit_failure tf cb).failure_count = cb.failure_count + 1)
    ∧ (reset_circuit_breaker cb).failure_count = 0 := by
  refine ⟨?_, fun t => (check_snd_fields t cb).1, ?_, ?_⟩
  · intro hs
    refine cb_reachable_inv h ?_
    rcases hs with hs | hs <;> simp [hs]
  · intro tf
    unfold record_circuit_failure
    split <;> rfl
  · unfold reset_circuit_breaker
    split <;> rfl

/-- C2: while a service's breaker is `open` and the recovery timeout has not
yet elapsed since the last failure, `execute_with_stability` never invokes
`operation` (zero operation calls); it returns the fallback's result when a
fallback was supplied and signals service-unavailable (the
`RuntimeError("Service ... is currently unavailable")`) when none was. -/
theorem execute_with_stability_open_blocks {α : Type} (cb : CircuitBreaker)
    (t tf tl : ℤ) (op : Nat → Option α) (errType : String)
    (fallback : Option α) (hstate : cb.state = .open_)
    (hlast : cb.last_failure_time = some tl)
    (htime : t - tl ≤ cb.recovery_timeout) :
    (execute_with_stability cb t tf op errType fallback).opCalls = 0
    ∧ (∀ f : α, fallback = some f →
      (execute_with_stability cb t tf op errType fallback).outcome =
        .fallbackResult f)
    ∧ (fallback = none →
      (execute_with_stability cb t tf op errType fallback).outcome =
        .serviceUnavailable) := by
  have hcheck : (check_circuit_breaker t cb).1 = false := by
    unfold check_circuit_breaker
    rw [hstate]
    simp only [hlast, Option.getD_some]
    rw [if_neg (by simpa using htime)]
  unfold execute_with_stability
  simp only [hcheck]
  rw [if_pos trivial]
  cases fallback
  · exact ⟨rfl, fun f hf => Option.noConfusion hf, fun _ => rfl⟩
  · rename_i f0
    refine ⟨rfl, ?_, ?_⟩
    · intro f hf
      injection hf with h
      rw [h]
    · intro h0
      exact Option.noConfusion h0

theorem execute_with_stability_open_blocks_witness :
    (execute_with_stability (α := Nat)
      { service_name := "ai_router", failure_threshold := 5,
        recovery_timeout := 60, failure_count := 5,
        last_failure_time := some 100, state := .open_ }
      130 130 (fun _ => some 7) "network_error" (some 42)).opCalls = 0
    ∧ (execute_with_stability (α := Nat)
      { service_name := "ai_router", failure_threshold := 5,
        recovery_timeout := 60, failure_count := 5,
        last_failure_time := some 100, state := .open_ }
      130 130 (fun _ => some 7) "network_error" (some 42)).outcome =
        .fallbackResult 42 := by
  have h := execute_with_stability_open_blocks
    { service_name := "ai_router", failure_threshold := 5,
      recovery_timeout := 60, failure_count := 5,
      last_failure_time := some 100, state := .open_ }
    130 130 100 (fun _ => some 7) "network_error" (some 42)
    rfl rfl (by decide)
  exact ⟨h.1, h.2.1 42 rfl⟩

/-- C3: when `operation` raises, `execute_with_stability` records the error
(one error record), invokes at most one recovery strategy — exactly one when
a strategy is registered for the classified error type — and invokes
`operation` a second time exactly when that recovery reported success; for a
classified `authentication_error` the registered recovery hook reports
failure, so the operation is never auto-retried. -/
theorem execute_with_stability_recovery {α : Type} (cb : CircuitBreaker)
    (t tf : ℤ) (op : Nat → Option α) (errType : String) (fallback : Option α)
    (hallow : (check_circuit_breaker t cb).1 = true) (hfail : op 0 = none) :
    (execute_with_stability cb t tf op errType fallback).errorRecords = 1
    ∧ (execute_with_stability cb t tf op errType fallback).recoveryCalls ≤ 1
    ∧ ((execute_with_stability cb t tf op errType fallback).recoveryCalls = 1
        ↔ (recovery_strategies errType).isSome = true)
    ∧ ((execute_with_stability cb t tf op errType fallback).opCalls = 2
        ↔ attempt_recovery errType = true)
    ∧ (errType = "authentication_error" →
        (execute_with_stability cb t tf op errType fallback).recoveryCalls = 1
        ∧ attempt_recovery errType = false
        ∧ (execute_with_stability cb t tf op errType fallback).opCalls = 1) := by
  have hfields :
      (execute_with_stability cb t tf op errType fallback).errorRecords = 1
      ∧ (execute_with_stability cb t tf op errType fallback).recoveryCalls =
          recoveryCallCount errType
      ∧ (execute_with_stability cb t tf op errType fallback).opCalls =
          (if attempt_recovery errType then 2 else 1) := by
    unfold execute_with_stability
    simp only [hallow, hfail]
    rw [if_neg (by decide)]
    by_cases hrec : attempt_recovery errType
    · rw [if_pos hrec, if_pos hrec]
      cases op 1 <;> cases fallback <;> exact ⟨rfl, rfl, rfl⟩
    · rw [if_neg hrec, if_neg hrec]
      cases fallback <;> exact ⟨rfl, rfl, rfl⟩
  obtain ⟨h1, h2, h3⟩ := hfields
  refine ⟨h1, ?_, ?_, ?_, ?_⟩
  · rw [h2]
    unfold recoveryCallCount
    split <;> simp
  · rw [h2]
    unfold recoveryCallCount
    split <;> simp_all
  · rw [h3]
    by_cases hrec : attempt_recovery errType <;> simp [hrec]
  · intro he
    subst he
    refine ⟨?_, ?_, ?_⟩
    · rw [h2]
      simp [recoveryCallCount, recovery_strategies]
    · simp [attempt_recovery, recovery_strategies]
    · rw [h3]
      simp [attempt_recovery, recovery_strategies]

theorem execute_with_stability_recovery_witness :
    (execute_with_stability (α := Nat) (mkCircuitBreaker "ai_router")
      0 0 (fun _ => none) "authentication_error" none).errorRecords = 1
    ∧ (execute_with_stability (α := Nat) (mkCircuitBreaker "ai_router")
      0 0 (fun _ => none) "authentication_error" none).recoveryCalls = 1
    ∧ (execute_with_stability (α := Nat) (mkCircuitBreaker "ai_router")
      0 0 (fun _ => none) "authentication_error" none).opCalls = 1 := by
  have h := execute_with_stability_recovery (mkCircuitBreaker "ai_router")
    0 0 (fun _ => (none : Option Nat)) "authentication_error" none
    (by decide) rfl
  exact ⟨h.1, (h.2.2.2.2 rfl).1, (h.2.2.2.2 rfl).2.2⟩

theorem circuit_breaker_reachable_invariant_witness :
    cbFive.state = .open_
    ∧ cbFive.failure_count ≥ cbFive.failure_threshold
    ∧ cbFive.last_failure_time ≠ none
    ∧ (check_circuit_breaker 61 cbFive).2.failure_count = cbFive.failure_count := by
  have h := circuit_breaker_reachable_invariant cbFive cbFive_reachable
  exact ⟨by decide, (h.1 (by decide)).1, (h.1 (by decide)).2, h.2.1 61⟩

end StabilityEngine




/-! ## Key pool theorems -/

namespace KeyPool

lemma minUsed_mem (c : KeyState) (cs : List KeyState) : minUsed c cs ∈ c :: cs := by
  induction cs generalizing c with
  | nil => simp [minUsed]
  | cons x xs ih =>
    have h := ih (minUsedStep c x)
    rcases List.mem_cons.mp h with h | h
    · rw [show minUsed c (x :: xs) = minUsed (minUsedStep c x) xs from rfl, h]
      unfold minUsedStep
      split
      · exact List.mem_cons_of_mem _ (List.mem_cons_self _ _)
      · exact List.mem_cons_self _ _
    · exact List.mem_cons_of_mem _ (List.mem_cons_of_mem _ h)

lemma minUsedStep_le_left (c x : KeyState) :
    (minUsedStep c x).used_today ≤ c.used_today := by
  unfold minUsedStep
  split
  · exact Nat.le_of_lt (by assumption)
  · exact Nat.le_refl _

lemma minUsedStep_le_right (c x : KeyState) :
    (minUsedStep c x).used_today ≤ x.used_today := by
  unfold minUsedStep
  split
  · exact Nat.le_refl _
  · exact Nat.le_of_not_lt (by assumption)

lemma minUsed_le (c : KeyState) (cs : List KeyState) :
    ∀ k ∈ c :: cs, (minUsed c cs).used_today ≤ k.used_today := by
  induction cs generalizing c with
  | nil =>
    intro k hk
    rcases List.mem_cons.mp hk with h | h
    · rw [h]; exact Nat.le_refl _
    · exact absurd h (List.not_mem_nil k)
  | cons x xs ih =>
    intro k hk
    rw [show minUsed c (x :: xs) = minUsed (minUsedStep c x) xs from rfl]
    have hhead := ih (minUsedStep c x) (minUsedStep c x) (List.mem_cons_self _ _)
    rcases List.mem_cons.mp hk with h | h
    · exact h ▸ hhead.trans (minUsedStep_le_left c x)
    · rcases List.mem_cons.mp h with h | h
      · exact h ▸ hhead.trans (minUsedStep_le_right c x)
      · exact ih (minUsedStep c x) k (List.mem_cons_of_mem _ h)

/-- C5: `acquire` returns `none` exactly when no credential of the provider
is eligible (cooldown unset or expired); whenever it returns a credential,
that credential belongs to the pool, is eligible — in particular a
credential whose cooldown timestamp is still in the future is never
returned — and its `used_today` counter is minimal among all eligible
credentials of that provider. -/
theorem keypool_acquire_spec (keys : List KeyState) (now : ℤ) :
    (acquire keys now = none ↔ ∀ k ∈ keys, eligible now k = false)
    ∧ (∀ k : KeyState, acquire keys now = some k →
        k ∈ keys
        ∧ eligible now k = true
        ∧ (∀ t : ℤ, k.cooldown_until = some t → t ≤ now)
        ∧ ∀ k2 ∈ keys, eligible now k2 = true →
            k.used_today ≤ k2.used_today) := by
  constructor
  · unfold acquire
    cases hc : keys.filter (eligible now) with
    | nil =>
      simp only [true_iff]
      intro k hk
      have h := List.filter_eq_nil.mp hc k hk
      revert h
      cases eligible now k <;> simp
    | cons c cs =>
      constructor
      · intro h
        exact Option.noConfusion h
      · intro hall
        exfalso
        have hcmem : c ∈ keys.filter (eligible now) := by
          rw [hc]
          exact List.mem_cons_self _ _
        have h1 := List.mem_of_mem_filter hcmem
        have h2 := List.of_mem_filter hcmem
        rw [hall c h1] at h2
        exact Bool.noConfusion h2
  · intro k hk
    unfold acquire at hk
    cases hc : keys.filter (eligible now) with
    | nil =>
      rw [hc] at hk
      exact Option.noConfusion hk
    | cons c cs =>
      rw [hc] at hk
      injection hk with hk
      have hmem : minUsed c cs ∈ c :: cs := minUsed_mem c cs
      have hmemf : minUsed c cs ∈ keys.filter (eligible now) := hc ▸ hmem
      have hkeys := List.mem_of_mem_filter hmemf
      have helig := List.of_mem_filter hmemf
      subst hk
      refine ⟨hkeys, helig, ?_, ?_⟩
      · intro t ht
        unfold eligible at helig
        rw [ht] at helig
        exact of_decide_eq_true helig
      · intro k2 hk2 helig2
        have hin : k2 ∈ keys.filter (eligible now) :=
          List.mem_filter.mpr ⟨hk2, helig2⟩
        rw [hc] at hin
        exact minUsed_le c cs k2 hin

theorem keypool_acquire_spec_witness :
    acquire [⟨"a", 3, none⟩, ⟨"b", 1, some 10⟩, ⟨"c", 2, none⟩] 5 =
      some ⟨"c", 2, none⟩
    ∧ (⟨"c", 2, none⟩ : KeyState) ∈
        [⟨"a", 3, none⟩, ⟨"b", 1, some 10⟩, ⟨"c", 2, none⟩]
    ∧ eligible 5 ⟨"c", 2, none⟩ = true
    ∧ (∀ k2 ∈ [(⟨"a", 3, none⟩ : KeyState), ⟨"b", 1, some 10⟩, ⟨"c", 2, none⟩],
        eligible 5 k2 = true → (2 : Nat) ≤ k2.used_today)
    ∧ acquire [⟨"b", 1, some 10⟩] 5 = none := by
  have h := (keypool_acquire_spec
    [⟨"a", 3, none⟩, ⟨"b", 1, some 10⟩, ⟨"c", 2, none⟩] 5).2
    ⟨"c", 2, none⟩ (by decide)
  have h0 := (keypool_acquire_spec [⟨"b", 1, some 10⟩] 5).1.mpr (by decide)
  exact ⟨by decide, h.1, h.2.1, h.2.2.2, h0⟩

end KeyPool

/-! ## Rate limiter theorems -/

namespace InMemoryLimiter

lemma dropWhile_eq_self_of_fresh (W now : ℤ) (q : List ℤ)
    (h : ∀ x ∈ q, ¬(x < now - W)) :
    q.dropWhile (fun t => decide (t < now - W)) = q := by
  cases q with
  | nil => rfl
  | cons x xs =>
    have hx : ¬((fun t => decide (t < now - W)) x = true) := by
      simpa using h x (List.mem_cons_self _ _)
    rw [List.dropWhile_cons, if_neg hx]

lemma dropWhile_eq_nil_of_stale (W now : ℤ) (q : List ℤ)
    (h : ∀ x ∈ q, x < now - W) :
    q.dropWhile (fun t => decide (t < now - W)) = [] := by
  induction q with
  | nil => rfl
  | cons x xs ih =>
    have hx : ((fun t => decide (t < now - W)) x = true) := by
      simpa using h x (List.mem_cons_self _ _)
    rw [List.dropWhile_cons, if_pos hx]
    exact ih fun y hy => h y (List.mem_cons_of_mem _ hy)

lemma dropWhile_keeps_fresh (W now : ℤ) (q : List ℤ)
    (hq : q.Pairwise (· ≤ ·)) :
    ∀ x ∈ q.dropWhile (fun t => decide (t < now - W)), ¬(x < now - W) := by
  induction q with
  | nil =>
    intro x hx
    simp at hx
  | cons a as ih =>
    rw [List.dropWhile_cons]
    by_cases hc : a < now - W
    · rw [if_pos (by simpa using hc)]
      exact ih (List.Pairwise.of_cons hq)
    · rw [if_neg (by simpa using hc)]
      intro x hx
      rcases List.mem_cons.mp hx with h | h
      · exact h ▸ hc
      · have hle : a ≤ x := (List.pairwise_cons.mp hq).1 x h
        omega

lemma allow_admit_of_fresh (L : Nat) (W : ℤ) (q : List ℤ) (t : ℤ)
    (hkeep : ∀ x ∈ q, ¬(x < t - W)) (hlt : q.length < L) :
    allow L W q t = (true, L - (q.length + 1), q ++ [t]) := by
  unfold allow
  rw [dropWhile_eq_self_of_fresh W t q hkeep, if_pos hlt]

lemma run_all_admitted (L : Nat) (W : ℤ) (pre ts : List ℤ)
    (hsorted : (pre ++ ts).Pairwise (· ≤ ·))
    (hspread : (pre ++ ts).Pairwise (fun x y => y - x ≤ W))
    (hlen : (pre ++ ts).length ≤ L) :
    run L W pre ts = (List.replicate ts.length true, pre ++ ts) := by
  induction ts generalizing pre with
  | nil => simp [run]
  | cons t ts ih =>
    have hkeep : ∀ x ∈ pre, ¬(x < t - W) := by
      intro x hx
      have hxy : t - x ≤ W :=
        (List.pairwise_append.mp hspread).2.2 x hx t (by simp)
      omega
    have hlt : pre.length < L := by
      have h := hlen
      simp only [List.length_append, List.length_cons] at h
      omega
    have hallow := allow_admit_of_fresh L W pre t hkeep hlt
    have hassoc : (pre ++ [t]) ++ ts = pre ++ t :: ts := by
      rw [List.append_assoc, List.singleton_append]
    have hrec := ih (pre ++ [t]) (by rw [hassoc]; exact hsorted)
      (by rw [hassoc]; exact hspread) (by rw [hassoc]; exact hlen)
    show ((allow L W pre t).1 ::
        (run L W (allow L W pre t).2.2 ts).1,
      (run L W (allow L W pre t).2.2 ts).2) = _
    rw [hallow]
    simp only
    rw [hrec]
    simp [List.replicate_succ, hassoc]

lemma allow_reject_full (L : Nat) (W : ℤ) (q : List ℤ) (u : ℤ)
    (hlen : q.length = L) (hkeep : ∀ x ∈ q, ¬(x < u - W)) :
    allow L W q u = (false, 0, q) := by
  unfold allow
  rw [dropWhile_eq_self_of_fresh W u q hkeep, if_neg (by omega)]

lemma allow_reset_after_window (L : Nat) (W : ℤ) (q : List ℤ) (v : ℤ)
    (hL : 0 < L) (hold : ∀ x ∈ q, x < v - W) :
    allow L W q v = (true, L - 1, [v]) := by
  unfold allow
  rw [dropWhile_eq_nil_of_stale W v q hold, if_pos (by simpa using hL)]
  simp

/-- C6: for window length `W` and limit `L`, the in-memory limiter admits
each of `L` requests of one identifier arriving (in order) within `W` of
each other, rejects the next request of that identifier inside the same
window, and admits again once more than `W` has elapsed since every stored
request; moreover timestamps older than `now - W` are pruned before every
admission check, and whenever a request is admitted at most `L` timestamps
remain stored. -/
theorem rate_limiter_sliding_window (L : Nat) (W : ℤ) (ts : List ℤ) (u v : ℤ)
    (hsorted : ts.Pairwise (· ≤ ·))
    (hspread : ts.Pairwise (fun x y => y - x ≤ W)) :
    (ts.length ≤ L →
      run L W [] ts = (List.replicate ts.length true, ts))
    ∧ (ts.length = L → (∀ x ∈ ts, x ≤ u ∧ u - x ≤ W) →
      (allow L W ts u).1 = false)
    ∧ (0 < L → (∀ x ∈ ts, W < v - x) →
      (allow L W ts v).1 = true)
    ∧ (∀ (q : List ℤ) (now : ℤ), q.Pairwise (· ≤ ·) →
      ((allow L W q now).1 = true → (allow L W q now).2.2.length ≤ L)
      ∧ ∀ x ∈ q.dropWhile (fun t => decide (t < now - W)), ¬(x < now - W)) := by
  refine ⟨?_, ?_, ?_, ?_⟩
  · intro hlen
    simpa using run_all_admitted L W [] ts (by simpa using hsorted)
      (by simpa using hspread) (by simpa using hlen)
  · intro hlen hin
    rw [allow_reject_full L W ts u hlen
      (fun x hx => by have := (hin x hx).2; omega)]
  · intro hL hold
    rw [allow_reset_after_window L W ts v hL (fun x hx => by
      have := hold x hx; omega)]
  · intro q now hq
    constructor
    · intro hadm
      unfold allow at hadm ⊢
      by_cases hc : (q.dropWhile (fun t => decide (t < now - W))).length < L
      · rw [if_pos hc]
        simp only [List.length_append, List.length_cons, List.length_nil]
        omega
      · rw [if_neg hc] at hadm
        exact absurd hadm Bool.false_ne_true
    · exact dropWhile_keeps_fresh W now q hq

theorem rate_limiter_sliding_window_witness :
    run 2 10 [] [0, 1] = ([true, true], [0, 1])
    ∧ (allow 2 10 [0, 1] 2).1 = false
    ∧ (allow 2 10 [0, 1] 20).1 = true := by
  have h := rate_limiter_sliding_window 2 10 [0, 1] 2 20 (by decide) (by decide)
  exact ⟨h.1 (by decide), h.2.1 rfl (by decide), h.2.2.1 (by decide) (by decide)⟩

end InMemoryLimiter

/-! ## Provider selector theorems -/

namespace ModelRouter

/-- C7: `get_best_provider` returns the local provider whenever the local
reachability probe succeeds, whatever the requested tier and however healthy
the remote providers are; otherwise it returns the first healthy provider of
the fixed priority list `[GROQ, OPENROUTER, OPENAI]`; and when no remote
provider is healthy it returns the designated most-reliable emergency
default `GROQ` instead of failing the selection. -/
theorem get_best_provider_spec (model_id : String) (localAvailable : Bool)
    (healthy : ModelProvider → Bool) :
    (localAvailable = true →
      get_best_provider model_id localAvailable healthy = .LOCAL)
    ∧ (localAvailable = false →
      get_best_provider model_id localAvailable healthy =
        (remoteProviders.find? healthy).getD .GROQ)
    ∧ (localAvailable = false → (∀ p, healthy p = false) →
      get_best_provider model_id localAvailable healthy = .GROQ) := by
  refine ⟨?_, ?_, ?_⟩
  · intro hl
    simp [get_best_provider, hl]
  · intro hl
    subst hl
    cases hG : healthy .GROQ <;> cases hO : healthy .OPENROUTER <;>
      cases hA : healthy .OPENAI <;>
      simp [get_best_provider, get_healthy_providers, remoteProviders,
        hG, hO, hA]
  · intro hl hnone
    subst hl
    simp [get_best_provider, get_healthy_providers, remoteProviders, hnone]

theorem get_best_provider_spec_witness :
    get_best_provider "fast" true (fun _ => true) = .LOCAL
    ∧ get_best_provider "smart" false
        (fun p => match p with | .OPENROUTER => true | _ => false) =
        .OPENROUTER
    ∧ get_best_provider "balanced" false (fun _ => false) = .GROQ := by
  have h1 := (get_best_provider_spec "fast" true (fun _ => true)).1 rfl
  have h2 := (get_best_provider_spec "smart" false
    (fun p => match p with | .OPENROUTER => true | _ => false)).2.1 rfl
  have h3 := (get_best_provider_spec "balanced" false (fun _ => false)).2.2
    rfl (fun _ => rfl)
  exact ⟨h1, by rw [h2]; rfl, h3⟩

end ModelRouter

/-! ## Stream relay theorems -/

namespace StreamRelay

lemma genz_generator_eq (chunks : List String) :
    genz_generator chunks = chunks.map sseFrame ++ [doneMarker] := by
  induction chunks with
  | nil => rfl
  | cons c cs ih => simp [genz_generator, ih]

lemma event_stream_eq (chunks : List String) :
    event_stream chunks = chunks.map (fun c => "data: " ++ c ++ "\n\n") := by
  induction chunks with
  | nil => rfl
  | cons c cs ih => simp [event_stream, ih]

lemma sseFrame_ne_doneMarker (c : String) : sseFrame c ≠ doneMarker := by
  intro h
  have hdata := congrArg String.data h
  rw [sseFrame, jsonDumpsContent, doneMarker] at hdata
  simp only [String.data_append, List.append_assoc] at hdata
  simp at hdata

/-- C9 counterexample: the relay the gateway actually returns to the caller
(`stream_response` / `event_stream`, `services/stream.py` lines 7-19, the
response built at the chat endpoint) emits no terminal marker.  On the
fragments `["a", "b", "c"]` its output is exactly the three fragment frames
— the terminal `data: [DONE]` frame is not among them — and its complete
output for `["a"]` coincides with the first frame of its output for
`["a", "b"]`, so a caller cannot tell that completed stream from this
aborted one. -/
theorem stream_relay_counterexample :
    event_stream ["a", "b", "c"] =
      ["data: a\n\n", "data: b\n\n", "data: c\n\n"]
    ∧ ¬ doneMarker ∈ event_stream ["a", "b", "c"]
    ∧ event_stream ["a"] = (event_stream ["a", "b"]).take 1 := by
  refine ⟨rfl, ?_, rfl⟩
  rw [show event_stream ["a", "b", "c"] =
    ["data: a\n\n", "data: b\n\n", "data: c\n\n"] from rfl]
  decide

/-- C9 (amended): for every finite fragment sequence, the live Stream Relay
(`event_stream`, the one the chat endpoint returns to the caller) delivers
exactly those fragments in the same order with no reordering — one `data:`
frame per fragment, the i-th frame carrying the i-th fragment — but appends
no terminal marker: its output for a completed stream is literally the
prefix a caller sees when any longer stream is aborted after the same
number of frames, so completion cannot be distinguished from abortion.
Only the caller-less genz relay (`genz_generator`) appends the explicit
terminal `data: [DONE]` frame, distinct from every fragment frame, after
the in-order fragment frames. -/
theorem stream_relay_order_and_marker (chunks more : List String) :
    event_stream chunks = chunks.map (fun c => "data: " ++ c ++ "\n\n")
    ∧ (∀ i (hi : i < chunks.length),
      (event_stream chunks).get? i =
        some ("data: " ++ chunks.get ⟨i, hi⟩ ++ "\n\n"))
    ∧ (event_stream chunks).length = chunks.length
    ∧ event_stream chunks = (event_stream (chunks ++ more)).take chunks.length
    ∧ genz_generator chunks = chunks.map sseFrame ++ [doneMarker]
    ∧ (genz_generator chunks).getLast? = some doneMarker
    ∧ (∀ c : String, sseFrame c ≠ doneMarker) := by
  refine ⟨event_stream_eq chunks, ?_, ?_, ?_, genz_generator_eq chunks, ?_,
    sseFrame_ne_doneMarker⟩
  · intro i hi
    rw [event_stream_eq]
    rw [List.get?_map, List.get?_eq_get hi]
    rfl
  · rw [event_stream_eq, List.length_map]
  · have hlen : chunks.length =
        (chunks.map (fun c => "data: " ++ c ++ "\n\n")).length := by simp
    rw [event_stream_eq, event_stream_eq, List.map_append, hlen]
    exact (List.take_left _ _).symm
  · rw [genz_generator_eq]
    exact List.getLast?_concat _

theorem stream_relay_order_and_marker_witness :
    event_stream ["a", "b"] = ["data: a\n\n", "data: b\n\n"]
    ∧ (event_stream ["a", "b"]).get? 1 = some ("data: " ++ "b" ++ "\n\n")
    ∧ event_stream ["a", "b"] = (event_stream (["a", "b"] ++ ["c"])).take 2
    ∧ (genz_generator ["a", "b"]).getLast? = some doneMarker
    ∧ sseFrame "a" ≠ doneMarker := by
  have h := stream_relay_order_and_marker ["a", "b"] ["c"]
  refine ⟨by rw [h.1]; rfl, ?_, h.2.2.2.1, h.2.2.2.2.2.1, h.2.2.2.2.2.2 "a"⟩
  have h2 := h.2.1 1 (by decide)
  simpa using h2

end StreamRelay

/-! ## Router rotation theorems -/

namespace AIRouter

lemma streamGroqLoop_cooldowns (outcome : String → KeyOutcome)
    (keys : List String) (acc : List String) (n : Nat) (last : Option AppErr) :
    (streamGroqLoop outcome acc keys n last).cooldownsApplied = [] := by
  induction keys generalizing acc n last with
  | nil => rfl
  | cons k ks ih =>
    simp only [streamGroqLoop]
    cases h : outcome k with
    | mk cs err =>
      cases err with
      | none => rfl
      | some e => exact ih (acc ++ cs) (n + 1) (some e)

lemma streamGroqLoop_attempts_le (outcome : String → KeyOutcome)
    (keys : List String) (acc : List String) (n : Nat) (last : Option AppErr) :
    (streamGroqLoop outcome acc keys n last).attempts ≤ n + keys.length := by
  induction keys generalizing acc n last with
  | nil => simp [streamGroqLoop]
  | cons k ks ih =>
    simp only [streamGroqLoop]
    cases h : outcome k with
    | mk cs err =>
      cases err with
      | none =>
        simp only [List.length_cons]
        omega
      | some e =>
        have := ih (acc ++ cs) (n + 1) (some e)
        simp only [List.length_cons]
        omega

lemma streamGroqLoop_all_fail (outcome : String → KeyOutcome)
    (keys : List String) (acc : List String) (n : Nat) (last : Option AppErr)
    (hfail : ∀ k ∈ keys, (outcome k).2.isSome = true) :
    (streamGroqLoop outcome acc keys n last).exhausted.isSome = true
    ∧ (streamGroqLoop outcome acc keys n last).attempts = n + keys.length := by
  induction keys generalizing acc n last with
  | nil => exact ⟨rfl, rfl⟩
  | cons k ks ih =>
    simp only [streamGroqLoop]
    cases h : outcome k with
    | mk cs err =>
      cases err with
      | none =>
        exfalso
        have hk := hfail k (List.mem_cons_self _ _)
        rw [h] at hk
        exact Bool.noConfusion hk
      | some e =>
        have hrec := ih (acc ++ cs) (n + 1) (some e)
          (fun k2 hk2 => hfail k2 (List.mem_cons_of_mem _ hk2))
        refine ⟨hrec.1, ?_⟩
        rw [hrec.2]
        simp only [List.length_cons]
        omega

/-- The per-key outcome of the end-to-end scenario: the provider's only
credential is rejected upstream with the Groq rate-limit error. -/
def rateLimitedOutcome : String → KeyOutcome :=
  fun _ => ([], some ⟨429, "Groq rate limit exceeded"⟩)

/-- C4 counterexample: the claim says that on a rate-limit failure the
Router puts the failed credential into cooldown.  Running the embedded
rotation loop of `AIRouter._stream_groq` on a provider with one credential
whose call is rate-limited, the loop raises the exhaustion error but its
cooldown trace is empty — the credential is never put into cooldown (the
loop body contains no `KeyPool.cooldown` call; `KeyPool` has no caller in
the repository). -/
theorem router_cooldown_counterexample :
    (stream_groq ["k1"] rateLimitedOutcome).exhausted.isSome = true
    ∧ (stream_groq ["k1"] rateLimitedOutcome).cooldownsApplied = []
    ∧ ¬ "k1" ∈ (stream_groq ["k1"] rateLimitedOutcome).cooldownsApplied := by
  refine ⟨rfl, rfl, ?_⟩
  rw [show (stream_groq ["k1"] rateLimitedOutcome).cooldownsApplied =
    [] from rfl]
  simp

/-- C4 (amended): when an adapter call fails — a rate-limit error included —
the Router continues with the next credential of the same provider without
putting the failed credential into cooldown (its cooldown trace is always
empty); it makes at most one attempt per credential, and when every
credential fails the generator raises the single provider-level exhaustion
error.  That error, however, never reaches the Stability Layer: the chat
endpoint's operation (`execute_ai_stream`) only constructs the lazy
streaming response, so `execute_with_stability` returns the unconsumed
stream as a success — invoking the fallback zero times and resetting the
breaker — and the exhaustion error surfaces later, while the response body
is drained outside the stability wrapper, aborting the caller's
connection. -/
theorem router_rotation_exhaustion (keys : List String)
    (outcome : String → KeyOutcome)
    (hfail : ∀ k ∈ keys, (outcome k).2.isSome = true) (hne : keys ≠ [])
    (cb : CircuitBreaker) (t tf : ℤ) (errType : String)
    (fallbackResp : StreamResult)
    (hallow : (StabilityEngine.check_circuit_breaker t cb).1 = true) :
    (stream_groq keys outcome).cooldownsApplied = []
    ∧ (∀ outcome2 : String → KeyOutcome,
      (stream_groq keys outcome2).attempts ≤ keys.length)
    ∧ (stream_groq keys outcome).attempts = keys.length
    ∧ (stream_groq keys outcome).exhausted.isSome = true
    ∧ (StabilityEngine.execute_with_stability cb t tf
        (execute_ai_stream keys outcome) errType (some fallbackResp)).outcome =
      .success (stream_groq keys outcome)
    ∧ (StabilityEngine.execute_with_stability cb t tf
        (execute_ai_stream keys outcome) errType
        (some fallbackResp)).fallbackCalls = 0
    ∧ (StabilityEngine.execute_with_stability cb t tf
        (execute_ai_stream keys outcome) errType (some fallbackResp)).cb =
      StabilityEngine.reset_circuit_breaker
        (StabilityEngine.check_circuit_breaker t cb).2 := by
  have hcool : (stream_groq keys outcome).cooldownsApplied = [] := by
    cases keys with
    | nil => rfl
    | cons k ks => exact streamGroqLoop_cooldowns outcome (k :: ks) [] 0 none
  have hle : ∀ outcome2 : String → KeyOutcome,
      (stream_groq keys outcome2).attempts ≤ keys.length := by
    intro outcome2
    cases keys with
    | nil => exact Nat.le_refl 0
    | cons k ks =>
      simpa using streamGroqLoop_attempts_le outcome2 (k :: ks) [] 0 none
  have hexh : (stream_groq keys outcome).exhausted.isSome = true
      ∧ (stream_groq keys outcome).attempts = keys.length := by
    cases keys with
    | nil => exact absurd rfl hne
    | cons k ks =>
      have h := streamGroqLoop_all_fail outcome (k :: ks) [] 0 none hfail
      exact ⟨h.1, by simpa using h.2⟩
  have hstab :
      (StabilityEngine.execute_with_stability cb t tf
        (execute_ai_stream keys outcome) errType (some fallbackResp)).outcome =
        .success (stream_groq keys outcome)
      ∧ (StabilityEngine.execute_with_stability cb t tf
        (execute_ai_stream keys outcome) errType
        (some fallbackResp)).fallbackCalls = 0
      ∧ (StabilityEngine.execute_with_stability cb t tf
        (execute_ai_stream keys outcome) errType (some fallbackResp)).cb =
        StabilityEngine.reset_circuit_breaker
          (StabilityEngine.check_circuit_breaker t cb).2 := by
    unfold StabilityEngine.execute_with_stability
    simp only [hallow]
    rw [if_neg (by decide)]
    simp [execute_ai_stream]
  exact ⟨hcool, hle, hexh.2, hexh.1, hstab.1, hstab.2.1, hstab.2.2⟩

theorem router_rotation_exhaustion_witness :
    (stream_groq ["k1"] rateLimitedOutcome).attempts = 1
    ∧ (stream_groq ["k1"] rateLimitedOutcome).cooldownsApplied = []
    ∧ (stream_groq ["k1"] rateLimitedOutcome).exhausted.isSome = true
    ∧ (StabilityEngine.execute_with_stability (mkCircuitBreaker "ai_router")
        0 0 (execute_ai_stream ["k1"] rateLimitedOutcome) "RuntimeError"
        (some ⟨["Sorry, technical difficulties"], none, 0, []⟩)).outcome =
      .success (stream_groq ["k1"] rateLimitedOutcome)
    ∧ (StabilityEngine.execute_with_stability (mkCircuitBreaker "ai_router")
        0 0 (execute_ai_stream ["k1"] rateLimitedOutcome) "RuntimeError"
        (some ⟨["Sorry, technical difficulties"], none, 0, []⟩)).fallbackCalls =
      0 := by
  have h := router_rotation_exhaustion ["k1"] rateLimitedOutcome
    (by intro k hk; rfl) (List.cons_ne_nil "k1" [])
    (mkCircuitBreaker "ai_router") 0 0 "RuntimeError"
    ⟨["Sorry, technical difficulties"], none, 0, []⟩ (by decide)
  exact ⟨h.2.2.1, h.1, h.2.2.2.1, h.2.2.2.2.1, h.2.2.2.2.2.1⟩

end AIRouter

/-! ## Adapter error-classification theorems -/

/-- C8 counterexample: the claim quantifies over every provider adapter, but
the HuggingFace adapter does not map status 401 to `auth_invalid`: it raises
the generic `AppError(502, "HuggingFace provider error")` for every non-200
status, whose normalized kind is `transport_error`. -/
theorem adapter_error_mapping_counterexample :
    HuggingFaceProvider.statusError 401 =
      some ⟨502, "HuggingFace provider error"⟩
    ∧ (HuggingFaceProvider.statusError 401).map specErrorKind =
      some .transport_error
    ∧ (HuggingFaceProvider.statusError 401).map specErrorKind ≠
      some .auth_invalid := by
  refine ⟨rfl, rfl, ?_⟩
  rw [show (HuggingFaceProvider.statusError 401).map specErrorKind =
    some .transport_error from rfl]
  simp

/-- C8 (amended): the Groq and OpenRouter chat adapters map upstream
statuses deterministically as the spec says — 401 to `auth_invalid`, 429 to
`rate_limited`, 503 to `upstream_unavailable`, a network timeout to
`timeout`, and any other non-2xx status to `transport_error`; the
HuggingFace and Ollama adapters, however, map every non-200 status
(401 and 429 included) to the generic `transport_error` kind, HuggingFace
mapping a network timeout to `timeout`. -/
theorem adapter_error_mapping (s : Nat) :
    ((GroqProvider.statusError 401).map specErrorKind = some .auth_invalid
      ∧ (GroqProvider.statusError 429).map specErrorKind = some .rate_limited
      ∧ (GroqProvider.statusError 503).map specErrorKind =
          some .upstream_unavailable
      ∧ specErrorKind GroqProvider.timeoutError = .timeout
      ∧ (¬(200 ≤ s ∧ s < 300) → s ≠ 401 → s ≠ 429 → s ≠ 503 →
        (GroqProvider.statusError s).map specErrorKind =
          some .transport_error))
    ∧ ((OpenRouterProvider.statusError 401).map specErrorKind =
          some .auth_invalid
      ∧ (OpenRouterProvider.statusError 429).map specErrorKind =
          some .rate_limited
      ∧ (OpenRouterProvider.statusError 503).map specErrorKind =
          some .upstream_unavailable
      ∧ specErrorKind OpenRouterProvider.timeoutError = .timeout
      ∧ (¬(200 ≤ s ∧ s < 300) → s ≠ 401 → s ≠ 429 → s ≠ 503 →
        (OpenRouterProvider.statusError s).map specErrorKind =
          some .transport_error))
    ∧ (s ≠ 200 →
      (HuggingFaceProvider.statusError s).map specErrorKind =
        some .transport_error)
    ∧ specErrorKind HuggingFaceProvider.timeoutError = .timeout
    ∧ (s ≠ 200 →
      (OllamaProvider.statusError s).map specErrorKind =
        some .transport_error) := by
  refine ⟨⟨rfl, rfl, rfl, rfl, ?_⟩, ⟨rfl, rfl, rfl, rfl, ?_⟩, ?_, rfl, ?_⟩
  · intro h2xx h401 h429 h503
    unfold GroqProvider.statusError
    rw [if_neg h401, if_neg h429, if_neg h503, if_pos (by omega)]
    rfl
  · intro h2xx h401 h429 h503
    unfold OpenRouterProvider.statusError
    rw [if_neg h401, if_neg h429, if_neg h503, if_pos (by omega)]
    rfl
  · intro h200
    unfold HuggingFaceProvider.statusError
    rw [if_pos h200]
    rfl
  · intro h200
    unfold OllamaProvider.statusError
    rw [if_pos h200]
    rfl

theorem adapter_error_mapping_witness :
    (GroqProvider.statusError 401).map specErrorKind = some .auth_invalid
    ∧ (GroqProvider.statusError 418).map specErrorKind =
        some .transport_error
    ∧ (HuggingFaceProvider.statusError 429).map specErrorKind =
        some .transport_error := by
  have h418 := adapter_error_mapping 418
  have h429 := adapter_error_mapping 429
  exact ⟨h418.1.1,
    h418.1.2.2.2.2 (by omega) (by omega) (by omega) (by omega),
    h429.2.2.1 (by omega)⟩
